import Mathlib

/-!
# Shallow embedding of the wildEpiOmics build scripts

This file embeds the data model and the pure logic of the wildEpiOmics
static-site generator (`build.js`, its rewritten variants, and the
client-side `script.js`) into Lean 4, and proves the specification
claims about them.

HTTP calls are modelled by passing the network's behaviour as a function
argument (`fetch : Nat → Option TaxNode` for taxonomy lookups, and
similar for Crossref / CSL / GBIF): `none` stands for a failed request,
a rejected promise, or a response whose relevant payload is missing.
JavaScript strings are Lean `String`s; an absent (`undefined`/`null`)
string field is modelled as `Option String` where the code distinguishes
it, or as `""` where the code only ever uses the field in a falsy test
or a comparison.
-/

namespace WildEpiOmics

/-- A taxonomy record as extracted from the NCBI datasets v2 API response
(`json.taxonomy_nodes[0].taxonomy`).  A missing string field is modelled
as `""` (the code only uses these fields in falsy tests and `===`
comparisons, where `undefined` and `""` behave alike for the values that
occur). -/
structure TaxNode where
  organism_name : String
  genbank_common_name : String
  common_name : String
  rank : String
  lineage : List Nat
deriving Repr, DecidableEq

/-- JS `s || null` on a string: `""` is falsy and becomes `null`. -/
def strOrNull (s : String) : Option String :=
  if s = "" then none else some s

/-- JS `a || b || null` on two strings. -/
def firstTruthy (a b : String) : Option String :=
  if a ≠ "" then some a else if b ≠ "" then some b else none

/-- The `out` object built by `enrichTaxonomy` in `build.js`. -/
structure EnrichOut where
  species : Option String
  order : Option String
  class_ : Option String
  common_name : Option String
  image : Option String
deriving Repr, DecidableEq

/-- The initial `out` object of `enrichTaxonomy` (all fields `null`). -/
def EnrichOut.init : EnrichOut :=
  { species := none, order := none, class_ := none, common_name := none, image := none }

/-- One iteration of the `for (const t of lineageTaxa)` loop in
`build.js` `enrichTaxonomy`: set `out.class` when `t.rank === "CLASS"`,
then set `out.order` when `t.rank === "ORDER"`. -/
def scanStep (out : EnrichOut) (t : TaxNode) : EnrichOut :=
  let out1 := if t.rank = "CLASS" then { out with class_ := some t.organism_name } else out
  if t.rank = "ORDER" then { out1 with order := some t.organism_name } else out1

/-- Function `enrichTaxonomy` from `build.js` (the active, forward-scanning
variant).  `fetch taxid` models `httpGetJson` on the taxon URL followed
by the `json?.taxonomy_nodes?.[0]?.taxonomy` extraction; `none` covers
both a rejected request (caught by the surrounding `try`/`catch`) and a
missing node.  The lineage requests run through the same `fetch`; failed
ones are dropped by `.filter(Boolean)`. -/
def enrichTaxonomy (fetch : Nat → Option TaxNode) (taxid : Nat) : EnrichOut :=
  match fetch taxid with
  | none => EnrichOut.init
  | some mainNode =>
    let out := { EnrichOut.init with
                 species := strOrNull mainNode.organism_name,
                 common_name := firstTruthy mainNode.genbank_common_name mainNode.common_name }
    let lineageIds := mainNode.lineage
    if lineageIds = [] then out
    else
      let lineageTaxa := (lineageIds.map fetch).filterMap id
      lineageTaxa.foldl scanStep out

/-- The organism name of the last node of rank `r` in a list of taxa
(`none` when no node of that rank occurs) — the property C1 ascribes to
the forward scan. -/
def lastRankName (r : String) (taxa : List TaxNode) : Option String :=
  ((taxa.filter fun t => t.rank = r).getLast?).map TaxNode.organism_name

/-- Concrete data for the C1 witness: a main node with lineage `[2, 3]`,
where taxon 2 has rank CLASS and taxon 3 has rank ORDER. -/
def c1Main : TaxNode :=
  { organism_name := "Mus musculus", genbank_common_name := "house mouse",
    common_name := "", rank := "SPECIES", lineage := [2, 3] }

def c1ClassNode : TaxNode :=
  { organism_name := "Mammalia", genbank_common_name := "", common_name := "",
    rank := "CLASS", lineage := [] }

def c1OrderNode : TaxNode :=
  { organism_name := "Rodentia", genbank_common_name := "", common_name := "",
    rank := "ORDER", lineage := [] }

def c1Fetch : Nat → Option TaxNode
  | 1 => some c1Main
  | 2 => some c1ClassNode
  | 3 => some c1OrderNode
  | _ => none

/-- A loaded study entry (the YAML record), with the taxonomy fields the
enrichment step may add.  `none` models an absent field. -/
structure Entry where
  doi : Option String
  taxid : Option Nat
  method : Option String
  individuals : Option String
  data_url : Option String
  tissue : Option String
  notes : Option String
  species : Option String
  order : Option String
  class_ : Option String
  common_name : Option String
  image : Option String
  source : Option String
deriving Repr, DecidableEq

/-- The `out` object of the GBIF-fallback `enrichTaxonomy` variant
(part_001): `{ species, order, class, common_name, source }`. -/
structure OutG where
  species : Option String
  order : Option String
  class_ : Option String
  common_name : Option String
  source : String
deriving Repr, DecidableEq

/-- Assignment `Object.assign(entry, extra)` for the build.js enrichment result:
it overwrites exactly the keys of `extra` — species, order, class,
common_name, image. -/
def assignEnrich (e : Entry) (x : EnrichOut) : Entry :=
  { e with
    species := x.species, order := x.order, class_ := x.class_,
    common_name := x.common_name, image := x.image }

/-- Assignment `Object.assign(entry, extra)` for the GBIF-variant enrichment result:
it overwrites species, order, class, common_name and source. -/
def assignEnrichG (e : Entry) (x : OutG) : Entry :=
  { e with
    species := x.species, order := x.order, class_ := x.class_,
    common_name := x.common_name, source := some x.source }

/-- One iteration of the build loop
`if (entry.taxid) Object.assign(entry, await enrichTaxonomy(entry.taxid))`
(build.js variant); `enrich` abstracts the awaited `enrichTaxonomy`. -/
def enrichStep (enrich : Nat → EnrichOut) (e : Entry) : Entry :=
  match e.taxid with
  | some n => if n = 0 then e else assignEnrich e (enrich n)
  | none => e

/-- The same loop body for the GBIF-fallback variant (part_001). -/
def enrichStepG (enrich : Nat → OutG) (e : Entry) : Entry :=
  match e.taxid with
  | some n => if n = 0 then e else assignEnrichG e (enrich n)
  | none => e

/-- JS-object assignment `map[k] = v` on an insertion-ordered
association list: an existing key keeps its position, a new key is
appended. -/
def setKey : List (String × String) → String → String → List (String × String)
  | [], k, v => [(k, v)]
  | (k', v') :: rest, k, v =>
    if k' = k then (k, v) :: rest else (k', v') :: setKey rest k v

/-- Property lookup `map[k]` on the association list. -/
def lookupKey : List (String × String) → String → Option String
  | [], _ => none
  | (k', v') :: rest, k => if k' = k then some v' else lookupKey rest k

/-- Function `buildBibtexMap` from build.js: for each entry, skip when
`!entry.doi` (absent or empty string), otherwise
`map[entry.doi] = await fetchBibtex(entry.doi)`; `fb` abstracts the
awaited `fetchBibtex`. -/
def buildBibtexMap (fb : String → String) (data : List Entry) : List (String × String) :=
  data.foldl
    (fun m e =>
      match e.doi with
      | some s => if s = "" then m else setKey m s (fb s)
      | none => m) []

/-- An entry whose `doi` is truthy and equal to `k`. -/
def doiIs (k : String) (e : Entry) : Bool :=
  match e.doi with
  | some s => s != "" && s == k
  | none => false

/-- A CSL-JSON author record (`{family, given}`, absent parts as `""`). -/
structure CslAuthor where
  family : String
  given : String
deriving Repr, DecidableEq

/-- A CSL-JSON work record, with the fields `cslToBibtex` reads.
`issued` is the `issued["date-parts"]` array; absent string fields are
`""` (the code reads them only through `|| ""`). -/
structure Csl where
  DOI : String
  author : List CslAuthor
  issued : List (List Int)
  title : String
  container_title : String
  volume : String
  issue : String
  page : String
deriving Repr, DecidableEq

/-- JS `s.trim()`: strip whitespace from both ends (on the character
list, so that it evaluates in the kernel). -/
def jsTrim (s : String) : String :=
  String.mk (((s.data.dropWhile Char.isWhitespace).reverse.dropWhile Char.isWhitespace).reverse)

/-- JS `s.toLowerCase()` (ASCII case mapping). -/
def lowerStr (s : String) : String := String.mk (s.data.map Char.toLower)

/-- JS `s.startsWith(p)` on strings, as a prefix test on the character
lists. -/
def jsStartsWith (s p : String) : Bool := p.data.isPrefixOf s.data

/-- JS `\w`: `[A-Za-z0-9_]`. -/
def isWordChar (c : Char) : Bool := c.isAlphanum || c = '_'

/-- JS `s.replace(/\W+/g, "_")`: each maximal run of non-word characters
becomes a single underscore.  The flag records whether we are inside
such a run. -/
def replWAux (inRun : Bool) : List Char → List Char
  | [] => []
  | c :: cs =>
    if isWordChar c then c :: replWAux false cs
    else if inRun then replWAux true cs
    else '_' :: replWAux true cs

def replW (s : String) : String := String.mk (replWAux false s.data)

/-- The author formatting `` `${a.family || ""}, ${a.given || ""}`.trim() `` of `cslToBibtex`. -/
def authorToBib (a : CslAuthor) : String := jsTrim (a.family ++ ", " ++ a.given)

/-- Function `cslToBibtex` from build.js: format a CSL-JSON record as a BibTeX
`@article` entry.  The template-literal braces are the `\x7b`/`\x7d`
characters. -/
def cslToBibtex (csl : Csl) : String :=
  let id := if csl.DOI = "" then "entry" else replW csl.DOI
  let authors := String.intercalate " and " (csl.author.map authorToBib)
  let year : String :=
    match csl.issued.head? with
    | some parts =>
      match parts.head? with
      | some y => if y = 0 then "" else toString y
      | none => ""
    | none => ""
  ("\n@article\x7b" ++ id ++ ",\n  title = \x7b" ++ csl.title
    ++ "\x7d,\n  author = \x7b" ++ authors
    ++ "\x7d,\n  journal = \x7b" ++ csl.container_title
    ++ "\x7d,\n  year = \x7b" ++ year
    ++ "\x7d,\n  volume = \x7b" ++ csl.volume
    ++ "\x7d,\n  number = \x7b" ++ csl.issue
    ++ "\x7d,\n  pages = \x7b" ++ csl.page
    ++ "\x7d,\n  doi = \x7b" ++ csl.DOI ++ "\x7d\n\x7d")
  |> jsTrim

/-- Function `fetchBibtex` from build.js.  `crossref` models the `httpGet` of the
Crossref transform URL (`none` = rejected promise, caught by the first
`try`/`catch`); `csl` models the CSL-JSON content negotiation (`none` =
rejected request or JSON parse failure, caught by the second).  The
function itself always returns a string. -/
def fetchBibtex (crossref : Option String) (csl : Option Csl) : String :=
  match crossref with
  | some bib =>
    if bib ≠ "" && !jsStartsWith bib "<" then jsTrim bib
    else
      match csl with
      | some c => cslToBibtex c
      | none => ""
  | none =>
    match csl with
    | some c => cslToBibtex c
    | none => ""

/-- The Crossref attempt yielded nothing usable: it failed, or returned
an empty body, or returned a body starting with `"<"`. -/
def crossrefUnusable (crossref : Option String) : Prop :=
  ∀ bib, crossref = some bib → bib = "" ∨ jsStartsWith bib "<" = true

/-- A concrete CSL record for the C2 witness. -/
def c2Csl : Csl :=
  { DOI := "10.1000/xyz", author := [{ family := "Doe", given := "Jane" }],
    issued := [[2021]], title := "T", container_title := "J",
    volume := "1", issue := "2", page := "3-4" }

/-- Node `path.extname`: the substring of the file name from its last dot,
`""` when there is no dot or the only dot is the leading character.
(The directory entries `"."` and `".."` never occur in `readdirSync`
output.) -/
def extname (name : String) : String :=
  let rev := name.data.reverse
  let ys := rev.takeWhile (fun c => c ≠ '.')
  match rev.drop ys.length with
  | [] => ""
  | [_] => ""
  | _ => String.mk ('.' :: ys.reverse)

/-- The extension test of `readAllData`:
`[".yaml", ".yml", ".json"].includes(path.extname(file).toLowerCase())`. -/
def validDataExt (name : String) : Bool :=
  [".yaml", ".yml", ".json"].contains (lowerStr (extname name))

/-- A file of the data directory: its listing name and its parse
outcome (`none` when `readFileSync`, `JSON.parse` or the YAML loader
throws — the `catch` only logs). -/
structure DataFile (V : Type) where
  name : String
  parsed : Option V
deriving Repr

/-- Function `readAllData` from build.js: `[]` when the data directory does not
exist; otherwise, in listing order, skip files without a recognised
extension and push each successfully parsed file. -/
def readAllData {V : Type} (dirExists : Bool) (files : List (DataFile V)) : List V :=
  if !dirExists then []
  else
    files.foldl
      (fun all f =>
        if !validDataExt f.name then all
        else
          match f.parsed with
          | some v => all ++ [v]
          | none => all) []

/-- Decimal digit accumulation for `parseIntJS`. -/
def digitsToNat (l : List Char) : Nat := l.foldl (fun n c => n * 10 + (c.toNat - 48)) 0

/-- JS `parseInt(s)` for the decimal inputs this site handles: skip
leading whitespace, read an optional sign and then a maximal run of
decimal digits; `none` models `NaN` (no digits at all). -/
def parseIntJS (s : String) : Option Int :=
  let l := s.data.dropWhile Char.isWhitespace
  let signAndRest : Bool × List Char :=
    match l with
    | c :: rest =>
      if c = '-' then (true, rest) else if c = '+' then (false, rest) else (false, l)
    | [] => (false, [])
  let ds := signAndRest.2.takeWhile Char.isDigit
  if ds.isEmpty then none
  else some (if signAndRest.1 then -(digitsToNat ds : Int) else (digitsToNat ds : Int))

/-- Split a character list around the first occurrence of `pat`:
`some (before, after)` when `pat` occurs, `none` otherwise. -/
def splitAtFirst (pat : List Char) : List Char → Option (List Char × List Char)
  | [] => if pat.isEmpty then some ([], []) else none
  | c :: cs =>
    if pat.isPrefixOf (c :: cs) then some ([], (c :: cs).drop pat.length)
    else
      match splitAtFirst pat cs with
      | some (b, a) => some (c :: b, a)
      | none => none

/-- JS `s.includes(sub)`. -/
def jsIncludes (s sub : String) : Bool := (splitAtFirst sub.data s.data).isSome

/-- The browser filter state read by `applyFilters` in `script.js`: the
selected values of the four multi-selects and the raw text of the two
scalar inputs. -/
structure FilterState where
  methodSel : List String
  orderSel : List String
  classSel : List String
  tissueSel : List String
  minIndRaw : String
  speciesRaw : String
deriving Repr

/-- Membership `set.has(e.field)` where the set holds the selected strings and the
field may be absent. -/
def memOpt (sel : List String) (x : Option String) : Bool :=
  match x with
  | some s => sel.contains s
  | none => false

/-- The derived `const minInd = parseInt($fMinInd.value) || 0`. -/
def FilterState.minInd (st : FilterState) : Int := (parseIntJS st.minIndRaw).getD 0

/-- The derived `const speciesText = ($fSpecies.value || '').trim().toLowerCase()`. -/
def FilterState.speciesText (st : FilterState) : String := lowerStr (jsTrim st.speciesRaw)

/-- The parsed `parseInt(e.individuals) || 0` count of an entry. -/
def parsedInd (e : Entry) : Int :=
  match e.individuals with
  | some s => (parseIntJS s).getD 0
  | none => 0

/-- The predicate of `entries.filter(...)` in `applyFilters`
(`script.js`, the `window.__DATA__` variant), with its early
`return false` chain. -/
def keepEntry (st : FilterState) (e : Entry) : Bool :=
  if !st.methodSel.isEmpty && !memOpt st.methodSel e.method then false
  else if !st.orderSel.isEmpty && !memOpt st.orderSel e.order then false
  else if !st.classSel.isEmpty && !memOpt st.classSel e.class_ then false
  else if !st.tissueSel.isEmpty && !memOpt st.tissueSel e.tissue then false
  else if decide (0 < st.minInd) && decide (parsedInd e < st.minInd) then false
  else if !(st.speciesText == "") && !jsIncludes (lowerStr (e.species.getD "")) st.speciesText
    then false
  else true

/-- Function `applyFilters` from `script.js`. -/
def applyFilters (st : FilterState) (entries : List Entry) : List Entry :=
  entries.filter (keepEntry st)

/-- The conjunction of active-filter requirements as claim C8 states
them: an empty selection or input constrains nothing, a non-empty one
must be satisfied. -/
def passesFilters (st : FilterState) (e : Entry) : Bool :=
  (st.methodSel.isEmpty || memOpt st.methodSel e.method)
  && (st.orderSel.isEmpty || memOpt st.orderSel e.order)
  && (st.classSel.isEmpty || memOpt st.classSel e.class_)
  && (st.tissueSel.isEmpty || memOpt st.tissueSel e.tissue)
  && (decide (st.minInd ≤ 0) || decide (st.minInd ≤ parsedInd e))
  && (st.speciesText == "" || jsIncludes (lowerStr (e.species.getD "")) st.speciesText)

/-- The state `clearFilters` leaves behind: all selections cleared and
both scalar inputs set to `""`. -/
def clearedFilters (st : FilterState) : Prop :=
  st.methodSel = [] ∧ st.orderSel = [] ∧ st.classSel = [] ∧ st.tissueSel = []
  ∧ st.minIndRaw = "" ∧ st.speciesRaw = ""

def c8State : FilterState :=
  { methodSel := [], orderSel := [], classSel := [], tissueSel := [],
    minIndRaw := "", speciesRaw := "" }

def c8Entry : Entry :=
  { doi := some "10.1/x", taxid := some 9606, method := some "WGBS",
    individuals := some "5", data_url := some "u", tissue := some "blood",
    notes := none, species := some "Homo sapiens", order := none,
    class_ := none, common_name := none, image := none, source := none }

/-- JS replacement-pattern expansion (`GetSubstitution`) for
`String.prototype.replace` with a string pattern and string replacement:
`$$` emits `$`, `$&` emits the matched text, `$` followed by a backquote
emits the text before the match, `$'` emits the text after it; any other
character (and `$` before any other character) is literal.  With a
string pattern there are no capture groups, so `$1` stays literal. -/
def expandRepl (matched before after : List Char) : List Char → List Char
  | [] => []
  | c :: rest =>
    if c = '$' then
      match rest with
      | [] => [c]
      | d :: rest2 =>
        if d = '$' then '$' :: expandRepl matched before after rest2
        else if d = '&' then matched ++ expandRepl matched before after rest2
        else if d = Char.ofNat 96 then before ++ expandRepl matched before after rest2
        else if d = Char.ofNat 39 then after ++ expandRepl matched before after rest2
        else c :: d :: expandRepl matched before after rest2
    else c :: expandRepl matched before after rest

/-- JS `s.replace(pat, repl)` with a string pattern: replace the first
occurrence of `pat`, applying the JS replacement-pattern expansion to
`repl`; `s` is returned unchanged when `pat` does not occur. -/
def jsReplaceFirst (s pat repl : String) : String :=
  match splitAtFirst pat.data s.data with
  | none => s
  | some (b, a) => String.mk (b ++ expandRepl pat.data b a repl.data ++ a)

/-- The injection marker of `template.html`. -/
def injectMarker : String := "<!-- INJECT_DATA -->"

/-- The replacement text of build step 5; `json` stands for the
`JSON.stringify(data, null, 2)` serialization of the enriched dataset. -/
def scriptTag (json : String) : String :=
  "<script>window.__DATA__ = " ++ json ++ ";</script>"

/-- Build step 5: `html.replace("<!-- INJECT_DATA -->", scriptTag)`. -/
def buildHtml (template json : String) : String :=
  jsReplaceFirst template injectMarker (scriptTag json)

/-- Modelled from the spec (claim C7's reading of step 5): the first
occurrence of the marker replaced by the script tag verbatim, all other
template text unchanged, the template unchanged when the marker is
absent. -/
def plainInject (template json : String) : String :=
  match splitAtFirst injectMarker.data template.data with
  | none => template
  | some (b, a) => String.mk (b ++ (scriptTag json).data ++ a)

/-- Function `fetchTaxonMinimal` from part_002 — the "NO CACHE VERSION (force
fresh every time)" — instrumented with a request log: every call issues
exactly one HTTP request for its taxid (appended to the log); `resp`
models the network's status-200 `taxonomy_nodes[0].taxonomy` payload
(`none` = error status, invalid JSON or missing node). -/
def fetchTaxonMinimalFresh (resp : Nat → Option TaxNode) (taxid : Nat)
    (log : List Nat) : Option TaxNode × List Nat :=
  (resp taxid, log ++ [taxid])

/-- Two successive lookups of the same taxid during a build, threading
the request log. -/
def lookupTwice (resp : Nat → Option TaxNode) (taxid : Nat) :
    (Option TaxNode × Option TaxNode) × List Nat :=
  let r1 := fetchTaxonMinimalFresh resp taxid []
  let r2 := fetchTaxonMinimalFresh resp taxid r1.2
  ((r1.1, r2.1), r2.2)

def c6Node : TaxNode :=
  { organism_name := "Aves", genbank_common_name := "", common_name := "",
    rank := "CLASS", lineage := [] }

/-- A GBIF classification node (`{rank, name}` of the ranked lineage
array returned by the species-match API). -/
structure GNode where
  rank : String
  name : String
deriving Repr, DecidableEq

/-- Indices `lineageIds.length - 2 … 0`: the lineage ids from the second-to-last
toward the root, as iterated by the backward scans of part_001 and
part_002. -/
def walkIds (lineage : List Nat) : List Nat :=
  (lineage.take (lineage.length - 1)).reverse

/-- NCBI pass 1 of part_001's `enrichTaxonomy`: walk the lineage ids
from the second-to-last toward the root, skip ids below 10 and failed
fetches, and record the organism name of every node whose lowercased
rank is `"class"` / `"order"` (no guard and no break, so a later — more
rootward — match overwrites an earlier one). -/
def ncbiPass (fetch : Nat → Option TaxNode) :
    List Nat → Option String × Option String → Option String × Option String
  | [], acc => acc
  | lt :: rest, (fc, fo) =>
    if lt < 10 then ncbiPass fetch rest (fc, fo)
    else
      match fetch lt with
      | none => ncbiPass fetch rest (fc, fo)
      | some ln =>
        let rank := lowerStr ln.rank
        let fc2 := if rank = "class" then some ln.organism_name else fc
        let fo2 := if rank = "order" then some ln.organism_name else fo
        ncbiPass fetch rest (fc2, fo2)

/-- The `(foundClass, foundOrder)` pair after part_001's NCBI pass. -/
def ncbiFound (fetch : Nat → Option TaxNode) (node : TaxNode) :
    Option String × Option String :=
  ncbiPass fetch (walkIds node.lineage) (none, none)

/-- The initial `out` of part_001's `enrichTaxonomy`
(`source: "ncbi"`). -/
def OutG.init : OutG :=
  { species := none, order := none, class_ := none, common_name := none, source := "ncbi" }

/-- Function `enrichTaxonomy` from part_001 (NCBI with GBIF fallback).  `fetch`
models `fetchTaxonMinimal` (`none` = null result, or retries exhausted
inside the loop's `try`/`catch`); `gbif` models
`fetchGBIFClassification` on a scientific name (`none` = null result or
failure). -/
def enrichTaxonomyG (fetch : Nat → Option TaxNode)
    (gbif : String → Option (List GNode)) (taxid : Nat) : OutG :=
  match fetch taxid with
  | none => OutG.init
  | some node =>
    let base := { OutG.init with
                  species := strOrNull node.organism_name,
                  common_name := firstTruthy node.genbank_common_name node.common_name }
    let p := ncbiFound fetch node
    if p.1.isSome && p.2.isSome then
      { base with class_ := p.1, order := p.2 }
    else
      match gbif node.organism_name with
      | none => { base with class_ := p.1, order := p.2 }
      | some cls =>
        let classNode := cls.find? (fun n => lowerStr n.rank == "class")
        let orderNode := cls.find? (fun n => lowerStr n.rank == "order")
        let cg : Option String × Bool :=
          match classNode with
          | some n => if p.1.isNone then (some n.name, true) else (p.1, false)
          | none => (p.1, false)
        let og : Option String × Bool :=
          match orderNode with
          | some n => if p.2.isNone then (some n.name, true) else (p.2, false)
          | none => (p.2, false)
        { base with class_ := cg.1, order := og.1,
                    source := if cg.2 || og.2 then "ncbi+gbif" else "ncbi" }

def c5Main : TaxNode :=
  { organism_name := "Sorex araneus", genbank_common_name := "European shrew",
    common_name := "", rank := "SPECIES", lineage := [20, 30, 99] }

def c5ClassNode : TaxNode :=
  { organism_name := "Mammalia", genbank_common_name := "", common_name := "",
    rank := "CLASS", lineage := [] }

def c5OrderNode : TaxNode :=
  { organism_name := "Eulipotyphla", genbank_common_name := "", common_name := "",
    rank := "ORDER", lineage := [] }

def c5Fetch : Nat → Option TaxNode
  | 7 => some c5Main
  | 20 => some c5ClassNode
  | 30 => some c5OrderNode
  | _ => none

def c5GbifA : String → Option (List GNode) := fun _ => none

def c5GbifB : String → Option (List GNode) := fun _ => some [{ rank := "class", name := "Wrong" }]

/-- The backward scan of part_002's `enrichTaxonomy`: walk from the
second-to-last lineage id toward the root, skip ids below 10 and failed
fetches, keep the first (deepest) node of each lowercased rank, and stop
once both ranks are found. -/
def backScan (fetch : Nat → Option TaxNode) :
    List Nat → Option String → Option String → Option String × Option String
  | [], fc, fo => (fc, fo)
  | lt :: rest, fc, fo =>
    if lt < 10 then backScan fetch rest fc fo
    else
      match fetch lt with
      | none => backScan fetch rest fc fo
      | some ln =>
        let rank := lowerStr ln.rank
        let fc2 := if fc.isNone && rank == "class" then some ln.organism_name else fc
        let fo2 := if fo.isNone && rank == "order" then some ln.organism_name else fo
        if fc2.isSome && fo2.isSome then (fc2, fo2) else backScan fetch rest fc2 fo2

/-- The `(class, order)` pair computed by the forward scan of build.js
on a lineage: fetch every lineage id, drop failures, and take the last
node of each uppercase rank (the loop of `enrichTaxonomy`, build.js
lines 130-134). -/
def enrichScan_v1 (fetch : Nat → Option TaxNode) (lineage : List Nat) :
    Option String × Option String :=
  let out := ((lineage.map fetch).filterMap id).foldl scanStep EnrichOut.init
  (out.class_, out.order)

/-- The `(class, order)` pair computed by the backward scan of part_002
on the same lineage. -/
def enrichScan_v2 (fetch : Nat → Option TaxNode) (lineage : List Nat) :
    Option String × Option String :=
  backScan fetch (walkIds lineage) none none

def c4ClassNode : TaxNode :=
  { organism_name := "Mammalia", genbank_common_name := "", common_name := "",
    rank := "CLASS", lineage := [] }

def c4Fetch : Nat → Option TaxNode := fun n => if n = 42 then some c4ClassNode else none

/-- The first node of lowercased rank `r` along a walked id list, with
part_002's skip of ids below 10 and of failed fetches. -/
def firstRankBack (fetch : Nat → Option TaxNode) (r : String) : List Nat → Option String
  | [] => none
  | lt :: rest =>
    if lt < 10 then firstRankBack fetch r rest
    else
      match fetch lt with
      | none => firstRankBack fetch r rest
      | some ln =>
        if lowerStr ln.rank == r then some ln.organism_name else firstRankBack fetch r rest

def c4OrderNode : TaxNode :=
  { organism_name := "Rodentia", genbank_common_name := "", common_name := "",
    rank := "ORDER", lineage := [] }

def c4wFetch : Nat → Option TaxNode
  | 20 => some c4ClassNode
  | 30 => some c4OrderNode
  | _ => none

theorem getLast?_cons_or {α : Type} (a : α) (l : List α) :
    (a :: l).getLast? = l.getLast?.or (some a) := by
  induction l with
  | nil => rfl
  | cons b m _ =>
    rw [List.getLast?_cons_cons]
    rcases h : (b :: m).getLast? with _ | x
    · exact absurd h (by simp)
    · rfl

theorem lastRankName_cons (r : String) (t : TaxNode) (ts : List TaxNode) :
    lastRankName r (t :: ts) =
      (lastRankName r ts).or (if t.rank = r then some t.organism_name else none) := by
  unfold lastRankName
  by_cases h : t.rank = r
  · simp only [List.filter_cons, h, decide_eq_true_eq, if_true, getLast?_cons_or]
    rcases hl : ((ts.filter fun t => decide (t.rank = r))).getLast? with _ | x <;> simp [h, hl]
  · simp [List.filter_cons, h]

theorem scanStep_class (out : EnrichOut) (t : TaxNode) :
    (scanStep out t).class_ =
      if t.rank = "CLASS" then some t.organism_name else out.class_ := by
  unfold scanStep
  by_cases h1 : t.rank = "CLASS" <;> by_cases h2 : t.rank = "ORDER" <;> simp [h1, h2]

theorem scanStep_order (out : EnrichOut) (t : TaxNode) :
    (scanStep out t).order =
      if t.rank = "ORDER" then some t.organism_name else out.order := by
  unfold scanStep
  by_cases h1 : t.rank = "CLASS" <;> by_cases h2 : t.rank = "ORDER" <;> simp [h1, h2]

theorem scanLoop_class (taxa : List TaxNode) (out : EnrichOut) :
    (taxa.foldl scanStep out).class_ = (lastRankName "CLASS" taxa).or out.class_ := by
  induction taxa generalizing out with
  | nil => simp [lastRankName]
  | cons t ts ih =>
    rw [List.foldl_cons, ih, lastRankName_cons, scanStep_class]
    by_cases h : t.rank = "CLASS"
    · simp only [h, if_true]
      rcases hl : lastRankName "CLASS" ts with _ | x <;> simp [hl]
    · simp [h]

theorem scanLoop_order (taxa : List TaxNode) (out : EnrichOut) :
    (taxa.foldl scanStep out).order = (lastRankName "ORDER" taxa).or out.order := by
  induction taxa generalizing out with
  | nil => simp [lastRankName]
  | cons t ts ih =>
    rw [List.foldl_cons, ih, lastRankName_cons, scanStep_order]
    by_cases h : t.rank = "ORDER"
    · simp only [h, if_true]
      rcases hl : lastRankName "ORDER" ts with _ | x <;> simp [hl]
    · simp [h]

/-- C1: when the main NCBI record of a taxid yields a lineage, the
forward scan of `enrichTaxonomy` (build.js) sets `out.class` to the
organism name of the last fetched lineage node of rank `"CLASS"` and
`out.order` to that of the last fetched lineage node of rank `"ORDER"`,
each field staying `null` when no node of that rank occurs. -/
theorem enrichTaxonomy_deepest_rank (fetch : Nat → Option TaxNode) (taxid : Nat)
    (mainNode : TaxNode) (h : fetch taxid = some mainNode) :
    (enrichTaxonomy fetch taxid).class_ =
      lastRankName "CLASS" ((mainNode.lineage.map fetch).filterMap id)
    ∧ (enrichTaxonomy fetch taxid).order =
      lastRankName "ORDER" ((mainNode.lineage.map fetch).filterMap id) := by
  unfold enrichTaxonomy
  rw [h]
  by_cases hl : mainNode.lineage = []
  · simp [hl, lastRankName, EnrichOut.init]
  · simp only [hl, if_false]
    constructor
    · rw [scanLoop_class]
      rcases hc : lastRankName "CLASS" ((mainNode.lineage.map fetch).filterMap id) with _ | x
        <;> simp [hc, EnrichOut.init]
    · rw [scanLoop_order]
      rcases hc : lastRankName "ORDER" ((mainNode.lineage.map fetch).filterMap id) with _ | x
        <;> simp [hc, EnrichOut.init]

/-- Witness for C1 at a concrete fetch function and taxid. -/
theorem enrichTaxonomy_deepest_rank_witness :
    (enrichTaxonomy c1Fetch 1).class_ =
      lastRankName "CLASS" ((c1Main.lineage.map c1Fetch).filterMap id)
    ∧ (enrichTaxonomy c1Fetch 1).order =
      lastRankName "ORDER" ((c1Main.lineage.map c1Fetch).filterMap id) :=
  enrichTaxonomy_deepest_rank c1Fetch 1 c1Main rfl

/-- C9: the taxonomy-enrichment step changes only the taxonomy fields —
doi, taxid, method, individuals, data_url, tissue and notes keep their
original values, in the build.js variant and in the GBIF variant. -/
theorem enrichStep_frame (enrich : Nat → EnrichOut) (enrichG : Nat → OutG) (e : Entry) :
    ((enrichStep enrich e).doi = e.doi ∧ (enrichStep enrich e).taxid = e.taxid
      ∧ (enrichStep enrich e).method = e.method
      ∧ (enrichStep enrich e).individuals = e.individuals
      ∧ (enrichStep enrich e).data_url = e.data_url
      ∧ (enrichStep enrich e).tissue = e.tissue
      ∧ (enrichStep enrich e).notes = e.notes)
    ∧ ((enrichStepG enrichG e).doi = e.doi ∧ (enrichStepG enrichG e).taxid = e.taxid
      ∧ (enrichStepG enrichG e).method = e.method
      ∧ (enrichStepG enrichG e).individuals = e.individuals
      ∧ (enrichStepG enrichG e).data_url = e.data_url
      ∧ (enrichStepG enrichG e).tissue = e.tissue
      ∧ (enrichStepG enrichG e).notes = e.notes) := by
  unfold enrichStep enrichStepG
  rcases e with ⟨doi, taxid, _, _, _, _, _, _, _, _, _, _, _⟩
  rcases taxid with _ | n
  · simp
  · by_cases h : n = 0 <;> simp [h, assignEnrich, assignEnrichG]

theorem lookupKey_setKey (m : List (String × String)) (k v k' : String) :
    lookupKey (setKey m k v) k' = if k = k' then some v else lookupKey m k' := by
  induction m with
  | nil =>
    by_cases h : k = k' <;> simp [setKey, lookupKey, h]
  | cons p rest ih =>
    rcases p with ⟨pk, pv⟩
    by_cases h1 : pk = k
    · subst h1
      by_cases h2 : pk = k' <;> simp [setKey, lookupKey, h2]
    · by_cases h2 : pk = k'
      · subst h2
        have hkk : ¬k = pk := fun hc => h1 hc.symm
        simp [setKey, lookupKey, h1, hkk]
      · simp [setKey, lookupKey, h1, h2, ih]

theorem buildBibtexMap_loop (fb : String → String) (data : List Entry)
    (k : String) (acc : List (String × String)) :
    lookupKey
      (data.foldl
        (fun m e =>
          match e.doi with
          | some s => if s = "" then m else setKey m s (fb s)
          | none => m) acc) k =
      if data.any (doiIs k) then some (fb k) else lookupKey acc k := by
  induction data generalizing acc with
  | nil => simp
  | cons e es ih =>
    rw [List.foldl_cons, ih, List.any_cons]
    rcases hd : e.doi with _ | s
    · simp [doiIs, hd]
    · by_cases hs : s = ""
      · simp [doiIs, hd, hs]
      · by_cases hk : s = k
        · subst hk
          by_cases ha : es.any (doiIs s) <;>
            simp [doiIs, hd, hs, ha, lookupKey_setKey]
        · have hfa : doiIs k e = false := by simp [doiIs, hd, hk]
          simp only [hfa, Bool.false_or]
          by_cases ha : es.any (doiIs k)
          · simp [ha]
          · simp only [ha, if_false, Bool.false_eq_true]
            simp only [hd, hs, if_false]
            rw [lookupKey_setKey]
            simp [hk]

/-- C3: the BibTeX map built by `buildBibtexMap` binds a key `k` exactly
when some entry has truthy doi `k` (entries without a doi contribute no
key), and binds it to the `fetchBibtex` result for `k`. -/
theorem buildBibtexMap_keys (fb : String → String) (data : List Entry) (k : String) :
    lookupKey (buildBibtexMap fb data) k =
      if data.any (doiIs k) then some (fb k) else none := by
  unfold buildBibtexMap
  rw [buildBibtexMap_loop]
  rfl

/-- C2: `fetchBibtex` attempts Crossref first and returns its trimmed
response exactly when it is non-empty and does not start with `"<"`;
otherwise it falls back to the CSL-JSON attempt and returns its
`cslToBibtex` conversion; when both attempts fail it returns `""` (and,
being a total function into `String`, it never throws). -/
theorem fetchBibtex_fallback_order (crossref : Option String) (csl : Option Csl) :
    (∀ bib, crossref = some bib → bib ≠ "" → jsStartsWith bib "<" = false →
      fetchBibtex crossref csl = jsTrim bib)
    ∧ (∀ c, crossrefUnusable crossref → csl = some c →
      fetchBibtex crossref csl = cslToBibtex c)
    ∧ (crossrefUnusable crossref → csl = none → fetchBibtex crossref csl = "") := by
  refine ⟨?_, ?_, ?_⟩
  · intro bib hcr hne hlt
    subst hcr
    simp [fetchBibtex, hne, hlt]
  · intro c hun hcsl
    subst hcsl
    rcases hcr : crossref with _ | bib
    · simp [fetchBibtex]
    · rcases hun bib hcr with h | h
      · simp [fetchBibtex, h]
      · simp [fetchBibtex, h]
  · intro hun hcsl
    subst hcsl
    rcases hcr : crossref with _ | bib
    · simp [fetchBibtex]
    · rcases hun bib hcr with h | h
      · simp [fetchBibtex, h]
      · simp [fetchBibtex, h]

/-- Witness for C2: each of the three branches at concrete inputs. -/
theorem fetchBibtex_fallback_order_witness :
    fetchBibtex (some "@misc") none = jsTrim "@misc"
    ∧ fetchBibtex (some "<html>") (some c2Csl) = cslToBibtex c2Csl
    ∧ fetchBibtex (some "") none = "" :=
  ⟨(fetchBibtex_fallback_order (some "@misc") none).1 "@misc" rfl (by decide) (by decide),
   (fetchBibtex_fallback_order (some "<html>") (some c2Csl)).2.1 c2Csl
     (fun bib hb => Or.inr (by rw [Option.some.injEq] at hb; subst hb; decide)) rfl,
   (fetchBibtex_fallback_order (some "") none).2.2
     (fun bib hb => Or.inl (by rw [Option.some.injEq] at hb; exact hb.symm)) rfl⟩

theorem readAllData_loop {V : Type} (files : List (DataFile V)) (acc : List V) :
    files.foldl
      (fun all f =>
        if !validDataExt f.name then all
        else
          match f.parsed with
          | some v => all ++ [v]
          | none => all) acc =
      acc ++ files.filterMap (fun f => if validDataExt f.name then f.parsed else none) := by
  induction files generalizing acc with
  | nil => simp
  | cons f fs ih =>
    rw [List.foldl_cons, ih]
    by_cases hv : validDataExt f.name
    · rcases hp : f.parsed with _ | v <;> simp [hv, hp, List.filterMap_cons]
    · simp [hv, List.filterMap_cons]

/-- C10: `readAllData` returns the parsed contents of exactly the files
whose lowercased extension is `.yaml`, `.yml` or `.json` and which parse
successfully, in listing order; a file whose parse fails is skipped
without affecting the others; and a missing data directory yields `[]`. -/
theorem readAllData_spec {V : Type} (files : List (DataFile V)) :
    (readAllData true files =
      files.filterMap (fun f => if validDataExt f.name then f.parsed else none))
    ∧ (∀ (pre post : List (DataFile V)) (name : String),
        readAllData true (pre ++ { name := name, parsed := none } :: post) =
          readAllData true (pre ++ post))
    ∧ readAllData false files = [] := by
  refine ⟨?_, ?_, rfl⟩
  · unfold readAllData
    rw [if_neg (by simp), readAllData_loop]
    rfl
  · intro pre post name
    unfold readAllData
    rw [if_neg (by simp), if_neg (by simp), readAllData_loop, readAllData_loop]
    simp [List.filterMap_append, List.filterMap_cons]

theorem keepEntry_eq_passes (st : FilterState) (e : Entry) :
    keepEntry st e = passesFilters st e := by
  unfold keepEntry passesFilters
  have h1 : decide (st.minInd ≤ 0) = !decide (0 < st.minInd) := by
    by_cases h : 0 < st.minInd
    · simp [h, Int.not_le.mpr h]
    · simp [h, Int.not_lt.mp h]
  have h2 : decide (st.minInd ≤ parsedInd e) = !decide (parsedInd e < st.minInd) := by
    by_cases h : parsedInd e < st.minInd
    · simp [h, Int.not_le.mpr h]
    · simp [h, Int.not_lt.mp h]
  rw [h1, h2]
  generalize st.methodSel.isEmpty = a1
  generalize memOpt st.methodSel e.method = b1
  generalize st.orderSel.isEmpty = a2
  generalize memOpt st.orderSel e.order = b2
  generalize st.classSel.isEmpty = a3
  generalize memOpt st.classSel e.class_ = b3
  generalize st.tissueSel.isEmpty = a4
  generalize memOpt st.tissueSel e.tissue = b4
  generalize decide (0 < st.minInd) = m1
  generalize decide (parsedInd e < st.minInd) = m2
  generalize (st.speciesText == "") = s1
  generalize jsIncludes (lowerStr (e.species.getD "")) st.speciesText = s2
  revert a1 b1 a2 b2 a3 b3 a4 b4 m1 m2 s1 s2
  decide

/-- C8: `applyFilters` returns exactly the entries satisfying the
conjunction of the active filters (each empty filter constraining
nothing), and with all filters cleared it returns the entire entries
list in order. -/
theorem applyFilters_conjunction (st : FilterState) (entries : List Entry) :
    applyFilters st entries = entries.filter (passesFilters st)
    ∧ (clearedFilters st → applyFilters st entries = entries) := by
  constructor
  · unfold applyFilters
    exact List.filter_congr (fun e _ => keepEntry_eq_passes st e)
  · rintro ⟨hm, ho, hc, ht, hmin, hsp⟩
    unfold applyFilters
    rcases st with ⟨ms, os, cs, ts, mr, sr⟩
    simp only at hm ho hc ht hmin hsp
    subst hm ho hc ht hmin hsp
    have hkeep : ∀ e, keepEntry ⟨[], [], [], [], "", ""⟩ e = true := fun e => rfl
    rw [List.filter_congr (fun e _ => hkeep e), List.filter_true]

/-- Witness for C8 at a cleared filter state and one concrete entry. -/
theorem applyFilters_conjunction_witness :
    applyFilters c8State [c8Entry] = [c8Entry].filter (passesFilters c8State)
    ∧ applyFilters c8State [c8Entry] = [c8Entry] :=
  ⟨(applyFilters_conjunction c8State [c8Entry]).1,
   (applyFilters_conjunction c8State [c8Entry]).2 ⟨rfl, rfl, rfl, rfl, rfl, rfl⟩⟩

/-- Counterexample to C7 as stated: when the serialized dataset contains
the replacement pattern `$&`, `html.replace` re-expands it to the
matched marker, so the output is not the template with the marker
replaced by the script tag verbatim. -/
theorem buildHtml_dollar_counterexample :
    buildHtml "<!-- INJECT_DATA -->" "$&" ≠
      plainInject "<!-- INJECT_DATA -->" "$&" := by
  decide

theorem expandRepl_no_dollar (m b a : List Char) (l : List Char) (h : ¬ '$' ∈ l) :
    expandRepl m b a l = l := by
  induction l with
  | nil => rfl
  | cons c rest ih =>
    have hc : c ≠ '$' := fun hc => h (hc ▸ List.mem_cons_self c rest)
    have hr : ¬ '$' ∈ rest := fun hm => h (List.mem_cons_of_mem c hm)
    unfold expandRepl
    simp [hc, ih hr]

/-- C7 (amended): provided the serialized dataset contains no `$`
character — so no replacement pattern can arise — the build writes the
template with the first occurrence of the marker replaced by the script
tag assigning the serialization to `window.__DATA__`, all other text
unchanged; and when the marker is absent the template is written
unchanged. -/
theorem buildHtml_injects (template json : String) (h : ¬ '$' ∈ json.data) :
    buildHtml template json = plainInject template json
    ∧ (splitAtFirst injectMarker.data template.data = none →
        buildHtml template json = template) := by
  have htag : ¬ '$' ∈ (scriptTag json).data := by
    intro hm
    unfold scriptTag at hm
    rw [String.data_append, String.data_append] at hm
    rcases List.mem_append.mp hm with h1 | h2
    · rcases List.mem_append.mp h1 with h3 | h4
      · exact absurd h3 (by decide)
      · exact h h4
    · exact absurd h2 (by decide)
  constructor
  · unfold buildHtml jsReplaceFirst plainInject
    rcases hs : splitAtFirst injectMarker.data template.data with _ | ⟨b, a⟩
    · rfl
    · show String.mk (b ++ expandRepl injectMarker.data b a (scriptTag json).data ++ a) =
        String.mk (b ++ (scriptTag json).data ++ a)
      rw [expandRepl_no_dollar _ _ _ _ htag]
  · intro hnone
    unfold buildHtml jsReplaceFirst
    rw [hnone]

/-- Witness for C7 (amended) at a concrete template and serialization. -/
theorem buildHtml_injects_witness :
    ¬ '$' ∈ "[1, 2]".data
    ∧ buildHtml "<html><!-- INJECT_DATA --></html>" "[1, 2]" =
        plainInject "<html><!-- INJECT_DATA --></html>" "[1, 2]" :=
  ⟨by decide, (buildHtml_injects "<html><!-- INJECT_DATA --></html>" "[1, 2]" (by decide)).1⟩

/-- Counterexample to C6 as stated: looking taxid 42 up twice issues two
HTTP requests, not one — the second lookup does not reuse the previously
retrieved record. -/
theorem fetchTaxon_cache_counterexample :
    (lookupTwice (fun _ => some c6Node) 42).2 ≠ [42] := by
  decide

/-- C6 (amended): part_002's `fetchTaxonMinimal` is deliberately
uncached — two lookups of the same taxid issue two fresh HTTP requests,
each returning whatever the network yields for that taxid. -/
theorem fetchTaxon_always_fresh (resp : Nat → Option TaxNode) (t : Nat) :
    (lookupTwice resp t).2 = [t, t]
    ∧ (lookupTwice resp t).1.1 = resp t
    ∧ (lookupTwice resp t).1.2 = resp t :=
  ⟨rfl, rfl, rfl⟩

/-- C5: in the GBIF-fallback variant, GBIF is consulted only when the
NCBI pass left class or order unresolved — when NCBI found both ranks,
the result is independent of the GBIF behaviour and carries source
`"ncbi"` — and a rank the NCBI pass resolved is never overwritten by
GBIF. -/
theorem enrichTaxonomyG_gbif_only_fallback (fetch : Nat → Option TaxNode)
    (gbif gbif2 : String → Option (List GNode)) (taxid : Nat) (node : TaxNode)
    (h : fetch taxid = some node) :
    ((ncbiFound fetch node).1.isSome = true ∧ (ncbiFound fetch node).2.isSome = true →
      enrichTaxonomyG fetch gbif taxid = enrichTaxonomyG fetch gbif2 taxid
      ∧ (enrichTaxonomyG fetch gbif taxid).source = "ncbi")
    ∧ ((ncbiFound fetch node).1.isSome = true →
      (enrichTaxonomyG fetch gbif taxid).class_ = (ncbiFound fetch node).1)
    ∧ ((ncbiFound fetch node).2.isSome = true →
      (enrichTaxonomyG fetch gbif taxid).order = (ncbiFound fetch node).2) := by
  unfold enrichTaxonomyG
  rw [h]
  rcases hp : ncbiFound fetch node with ⟨fc, fo⟩
  refine ⟨?_, ?_, ?_⟩
  · rintro ⟨hc, ho⟩
    simp only [hp] at hc ho ⊢
    simp [hc, ho, OutG.init]
  · intro hc
    simp only [hp] at hc ⊢
    rcases fo with _ | o
    · simp only [hc, Option.isSome_none, Bool.and_false, if_false, Bool.false_eq_true]
      rcases hg : gbif node.organism_name with _ | cls
      · simp
      · simp only
        rcases hcn : cls.find? (fun n => lowerStr n.rank == "class") with _ | n
        · rw [hcn]
        · rw [hcn]
          simp [Option.isSome_iff_ne_none.mp hc]
    · simp [hc]
  · intro ho
    simp only [hp] at ho ⊢
    rcases fc with _ | c
    · simp only [ho, Option.isSome_none, Bool.false_and, if_false, Bool.false_eq_true]
      rcases hg : gbif node.organism_name with _ | cls
      · simp
      · simp only
        rcases hon : cls.find? (fun n => lowerStr n.rank == "order") with _ | n
        · rw [hon]
        · rw [hon]
          simp [Option.isSome_iff_ne_none.mp ho]
    · simp [ho]

/-- Witness for C5: a taxid whose NCBI pass finds both ranks — the
result ignores GBIF entirely. -/
theorem enrichTaxonomyG_gbif_only_fallback_witness :
    (enrichTaxonomyG c5Fetch c5GbifA 7 = enrichTaxonomyG c5Fetch c5GbifB 7
      ∧ (enrichTaxonomyG c5Fetch c5GbifA 7).source = "ncbi")
    ∧ (enrichTaxonomyG c5Fetch c5GbifA 7).class_ = (ncbiFound c5Fetch c5Main).1
    ∧ (enrichTaxonomyG c5Fetch c5GbifA 7).order = (ncbiFound c5Fetch c5Main).2 :=
  ⟨(enrichTaxonomyG_gbif_only_fallback c5Fetch c5GbifA c5GbifB 7 c5Main rfl).1
      ⟨by decide, by decide⟩,
   (enrichTaxonomyG_gbif_only_fallback c5Fetch c5GbifA c5GbifB 7 c5Main rfl).2.1 (by decide),
   (enrichTaxonomyG_gbif_only_fallback c5Fetch c5GbifA c5GbifB 7 c5Main rfl).2.2 (by decide)⟩

/-- Counterexample to C4 as stated: on the lineage `[42]`, whose only
(and hence last) id names a CLASS node, the forward scan of build.js
finds the class while part_002's backward scan — which starts at index
`length - 2` — never looks at it. -/
theorem scan_variants_counterexample :
    enrichScan_v1 c4Fetch [42] ≠ enrichScan_v2 c4Fetch [42] := by
  decide

theorem backScan_eq (fetch : Nat → Option TaxNode) (l : List Nat)
    (fc fo : Option String) :
    backScan fetch l fc fo =
      (fc.or (firstRankBack fetch "class" l), fo.or (firstRankBack fetch "order" l)) := by
  induction l generalizing fc fo with
  | nil => cases fc <;> cases fo <;> rfl
  | cons lt rest ih =>
    unfold backScan firstRankBack
    by_cases hlt : lt < 10
    · simp only [hlt, if_true]
      exact ih fc fo
    · simp only [hlt, if_false]
      rcases hf : fetch lt with _ | ln
      · exact ih fc fo
      · simp only
        rcases fc with _ | c <;> rcases fo with _ | o
        · by_cases hcl : lowerStr ln.rank == "class" <;>
            by_cases hor : lowerStr ln.rank == "order" <;>
              simp_all [ih]
        · by_cases hcl : lowerStr ln.rank == "class" <;>
            by_cases hor : lowerStr ln.rank == "order" <;>
              simp_all [ih]
        · by_cases hcl : lowerStr ln.rank == "class" <;>
            by_cases hor : lowerStr ln.rank == "order" <;>
              simp_all [ih]
        · by_cases hcl : lowerStr ln.rank == "class" <;>
            by_cases hor : lowerStr ln.rank == "order" <;>
              simp_all [ih]

theorem firstRankBack_append (fetch : Nat → Option TaxNode) (r : String)
    (a b : List Nat) :
    firstRankBack fetch r (a ++ b) =
      (firstRankBack fetch r a).or (firstRankBack fetch r b) := by
  induction a with
  | nil => rfl
  | cons lt rest ih =>
    rw [List.cons_append]
    by_cases hlt : lt < 10
    · simp only [firstRankBack, hlt, if_true]
      exact ih
    · rcases hf : fetch lt with _ | ln
      · simp only [firstRankBack, hlt, if_false, hf]
        exact ih
      · simp only [firstRankBack, hlt, if_false, hf]
        by_cases hcl : (lowerStr ln.rank == r) = true
        · simp [hcl]
        · simp only [Bool.not_eq_true] at hcl
          simp [hcl, ih]

theorem lastRank_eq_firstBack (fetch : Nat → Option TaxNode) (up low : String)
    (hlow : lowerStr up = low) (l : List Nat)
    (h1 : ∀ id ∈ l, 10 ≤ id)
    (h2 : ∀ id t, id ∈ l → fetch id = some t → lowerStr t.rank = low → t.rank = up) :
    lastRankName up ((l.map fetch).filterMap id) = firstRankBack fetch low l.reverse := by
  induction l with
  | nil => rfl
  | cons x xs ih =>
    have h1x : 10 ≤ x := h1 x (List.mem_cons_self x xs)
    have h1xs : ∀ i ∈ xs, 10 ≤ i := fun i hi => h1 i (List.mem_cons_of_mem x hi)
    have h2xs : ∀ i t, i ∈ xs → fetch i = some t → lowerStr t.rank = low → t.rank = up :=
      fun i t hi => h2 i t (List.mem_cons_of_mem x hi)
    rw [List.reverse_cons, firstRankBack_append]
    rcases hf : fetch x with _ | t
    · have hsingle : firstRankBack fetch low [x] = none := by
        simp [firstRankBack, Nat.not_lt.mpr h1x, hf]
      rw [hsingle]
      simp only [List.map_cons, List.filterMap_cons, hf, id]
      rw [ih h1xs h2xs]
      cases firstRankBack fetch low xs.reverse <;> rfl
    · have hsingle : firstRankBack fetch low [x] =
          (if t.rank = up then some t.organism_name else none) := by
        by_cases hr : lowerStr t.rank = low
        · have hup : t.rank = up := h2 x t (List.mem_cons_self x xs) hf hr
          simp [firstRankBack, Nat.not_lt.mpr h1x, hf, hr, hup, hlow]
        · have hup : ¬t.rank = up := fun he => hr (he ▸ hlow)
          simp [firstRankBack, Nat.not_lt.mpr h1x, hf, hr, hup]
      rw [hsingle]
      simp only [List.map_cons, List.filterMap_cons, hf, id]
      rw [lastRankName_cons, ih h1xs h2xs]

/-- C4 (amended): the forward scan of build.js and the backward scan of
part_002 compute the same class and order whenever (a) every lineage id
is at least 10 (so the backward scan's skip of ids below 10 drops
nothing), (b) every fetched record whose lowercased rank is `"class"` /
`"order"` spells it `"CLASS"` / `"ORDER"` (so the exact-match and
case-insensitive tests agree), and (c) the record of the last lineage id
— the taxon itself, which only the forward scan visits — carries neither
of those ranks. -/
theorem scan_variants_equiv (fetch : Nat → Option TaxNode) (lineage : List Nat)
    (h1 : ∀ id ∈ lineage, 10 ≤ id)
    (h2 : ∀ id t, id ∈ lineage → fetch id = some t →
      (lowerStr t.rank = "class" → t.rank = "CLASS")
      ∧ (lowerStr t.rank = "order" → t.rank = "ORDER"))
    (h3 : ∀ lid, lineage.getLast? = some lid → ∀ t, fetch lid = some t →
      lowerStr t.rank ≠ "class" ∧ lowerStr t.rank ≠ "order") :
    enrichScan_v1 fetch lineage = enrichScan_v2 fetch lineage := by
  have hbridgeC := lastRank_eq_firstBack fetch "CLASS" "class" (by decide) lineage h1
    (fun i t hi hf hr => (h2 i t hi hf).1 hr)
  have hbridgeO := lastRank_eq_firstBack fetch "ORDER" "order" (by decide) lineage h1
    (fun i t hi hf hr => (h2 i t hi hf).2 hr)
  have hstrip : ∀ low : String, low = "class" ∨ low = "order" →
      firstRankBack fetch low lineage.reverse = firstRankBack fetch low (walkIds lineage) := by
    intro low hlow
    rcases hL : lineage.getLast? with _ | last
    · have hnil : lineage = [] := by
        cases lineage with
        | nil => rfl
        | cons y ys => rw [getLast?_cons_or] at hL; cases hy : ys.getLast? <;>
            simp [hy] at hL
      subst hnil
      rfl
    · have hne : lineage ≠ [] := by
        intro hcon
        rw [hcon] at hL
        cases hL
      have hlast : lineage.getLast hne = last := by
        rw [List.getLast?_eq_getLast lineage hne] at hL
        exact (Option.some.injEq _ _).mp hL
      have hmem : last ∈ lineage := hlast ▸ List.getLast_mem hne
      have h10 : 10 ≤ last := h1 last hmem
      have hwalk : walkIds lineage = lineage.dropLast.reverse := by
        unfold walkIds
        rw [← List.dropLast_eq_take]
      have hrev : lineage.reverse = last :: lineage.dropLast.reverse := by
        conv_lhs => rw [← List.dropLast_append_getLast hne]
        rw [List.reverse_append, hlast]
        rfl
      rw [hrev, hwalk]
      rcases hf : fetch last with _ | t
      · simp [firstRankBack, Nat.not_lt.mpr h10, hf]
      · have h3t := h3 last hL t hf
        rcases hlow with hl | hl <;> subst hl <;>
          simp [firstRankBack, Nat.not_lt.mpr h10, hf, h3t.1, h3t.2]
  unfold enrichScan_v1 enrichScan_v2
  rw [backScan_eq]
  simp only
  have hc : (((lineage.map fetch).filterMap id).foldl scanStep EnrichOut.init).class_ =
      firstRankBack fetch "class" (walkIds lineage) := by
    rw [scanLoop_class, hbridgeC, hstrip "class" (Or.inl rfl)]
    cases firstRankBack fetch "class" (walkIds lineage) <;> rfl
  have ho : (((lineage.map fetch).filterMap id).foldl scanStep EnrichOut.init).order =
      firstRankBack fetch "order" (walkIds lineage) := by
    rw [scanLoop_order, hbridgeO, hstrip "order" (Or.inr rfl)]
    cases firstRankBack fetch "order" (walkIds lineage) <;> rfl
  rw [hc, ho]
  cases firstRankBack fetch "class" (walkIds lineage) <;>
    cases firstRankBack fetch "order" (walkIds lineage) <;> rfl

/-- Witness for C4 (amended) on the lineage `[20, 30, 99]`. -/
theorem scan_variants_equiv_witness :
    enrichScan_v1 c4wFetch [20, 30, 99] = enrichScan_v2 c4wFetch [20, 30, 99] :=
  scan_variants_equiv c4wFetch [20, 30, 99]
    (by decide)
    (fun i t hi hf => by
      simp only [List.mem_cons, List.not_mem_nil, or_false] at hi
      rcases hi with rfl | rfl | rfl
      · rw [show c4wFetch 20 = some c4ClassNode from rfl, Option.some.injEq] at hf
        subst hf
        exact ⟨fun _ => rfl, fun hco => absurd hco (by decide)⟩
      · rw [show c4wFetch 30 = some c4OrderNode from rfl, Option.some.injEq] at hf
        subst hf
        exact ⟨fun hco => absurd hco (by decide), fun _ => rfl⟩
      · exact absurd hf (by simp [c4wFetch]))
    (fun lid hl t hf => by
      rw [show ([20, 30, 99] : List Nat).getLast? = some 99 from rfl,
        Option.some.injEq] at hl
      subst hl
      exact absurd hf (by simp [c4wFetch]))

end WildEpiOmics
